import Mathlib

/-!
Verification development for the GPS map-stamping application (src/app.py).

The file shallowly embeds the pieces of the program that the specification
talks about: the coordinate parser (app.py lines 83-89), the Python string
and float primitives it relies on (str.split, str.strip, float()), the text
composition of title and subtitle (lines 179-181), the band-and-inset
compositor (lines 184-209) and the Generate button handler (lines 130-141).

Modelling conventions:
  - Python float values are modelled by the inductive type PyFloat: an exact
    rational for finite values, plus signed infinity and nan (all of which
    the Python float() constructor can produce).  The binary rounding of
    IEEE doubles is not modelled; every decimal literal that appears in the
    claims denotes a double whose fixed-point rendering at 6 places agrees
    with the rendering of the exact rational, so nothing below depends on
    the difference.
  - Images are pixel functions: a width, a height and a total function from
    integer coordinates to RGBA values.  The PIL operations used by the
    program (convert, rectangle drawing, alpha_composite, paste with mask)
    are embedded as total functions on that type.
  - Glyph rasterisation by the font library is outside the program text; the
    two draw.text calls are embedded as a display list of TextOp records
    (position, text, fill, font choice) carried alongside the pixel image,
    and fonts are abstracted to their getsize height metric.  No claim
    refers to the pixels of rendered text.
  - The network collaborators (Nominatim reverse geocoding, the static-map
    tile server) are modelled by their observable responses: an optional
    JSON display_name field, and a response carrying an HTTP status code
    plus the result of attempting to decode the body as an image.  A raised
    exception anywhere in a try block is modelled by the value none.
-/

set_option maxHeartbeats 1000000

namespace GPSMap

/-! ### Python float values -/

/-- Result of a successful Python float() conversion: a finite value
(modelled as an exact rational), a signed infinity, or nan. -/
inductive PyFloat where
  | finite (q : ℚ)
  | inf (pos : Bool)
  | nan
deriving DecidableEq

/-! ### Decimal digits and decimal rendering of naturals -/

/-- Test for an ASCII decimal digit. -/
def isDigit (c : Char) : Bool := 48 ≤ c.toNat && c.toNat ≤ 57

/-- Numeric value of an ASCII digit character. -/
def digVal (c : Char) : Nat := c.toNat - 48

/-- ASCII digit character for a value below ten. -/
def digitChar (d : Nat) : Char := Char.ofNat (48 + d)

/-- Fuel-driven accumulator loop producing the decimal digits of a natural
number, most significant first. -/
def natDigitsAux : Nat → Nat → List Char → List Char
  | 0, _, acc => acc
  | fuel + 1, n, acc =>
    if n < 10 then digitChar n :: acc
    else natDigitsAux fuel (n / 10) (digitChar (n % 10) :: acc)

/-- Decimal rendering of a natural number, as produced by Python str()
for a nonnegative int. -/
def natStr (n : Nat) : String := String.mk (natDigitsAux (n + 1) n [])

/-- Decimal rendering of a natural number, left padded with zeros to the
given width (the behaviour of a %0Nd conversion). -/
def padZeros (w : Nat) (n : Nat) : String :=
  String.mk (List.replicate (w - (natStr n).data.length) '0') ++ natStr n

/-! ### Python str.split with a one-character separator -/

/-- Split of a character list at every occurrence of the separator,
keeping empty pieces, exactly as Python str.split(sep) does for a
one-character sep. -/
def splitChar (c : Char) : List Char → List (List Char)
  | [] => [[]]
  | x :: xs =>
    match splitChar c xs with
    | [] => [[]]
    | t :: ts => if x = c then [] :: t :: ts else (x :: t) :: ts

/-- Python str.split(sep) for a one-character separator, on strings. -/
def pySplitChar (c : Char) (s : String) : List String :=
  (splitChar c s.data).map String.mk

/-! ### Python str.strip -/

/-- Whitespace characters removed by str.strip (the ASCII subset; the
program only ever strips ASCII input). -/
def isPySpace (c : Char) : Bool :=
  c = ' ' || c = '\t' || c = '\n' || c = '\r' || c = '\x0b' || c = '\x0c'

/-- Removal of trailing whitespace from a character list. -/
def trimRight (l : List Char) : List Char :=
  (l.reverse.dropWhile isPySpace).reverse

/-- Python str.strip(): leading and trailing whitespace removed. -/
def pyStrip (s : String) : String :=
  String.mk (trimRight (s.data.dropWhile isPySpace))

/-! ### Python float() conversion (app.py line 87 calls float on each
stripped token) -/

/-- Digit-run scanner with Python underscore grouping: consumes digits and
single underscores that sit between two digits, returning the accumulated
value, the number of digits consumed, and the unconsumed rest.  An
underscore not followed by a digit is left unconsumed. -/
def pyDigitsAux : List Char → Nat → Nat → Nat × Nat × List Char
  | [], v, n => (v, n, [])
  | c :: cs, v, n =>
    if isDigit c then pyDigitsAux cs (v * 10 + digVal c) (n + 1)
    else if c = '_' then
      match cs with
      | c2 :: cs2 =>
        if isDigit c2 then pyDigitsAux cs2 (v * 10 + digVal c2) (n + 1)
        else (v, n, c :: cs)
      | [] => (v, n, [c])
    else (v, n, c :: cs)

/-- Python digitpart: a nonempty digit run (underscores allowed between
digits).  Returns its value, its digit count and the rest of the input. -/
def pyDigitPart (l : List Char) : Option (Nat × Nat × List Char) :=
  match l with
  | c :: _ => if isDigit c then some (pyDigitsAux l 0 0) else none
  | [] => none

/-- Python float mantissa: digits, digits followed by a point and optional
digits, or a point followed by digits.  Returns the value and the rest. -/
def pyNumber (l : List Char) : Option (ℚ × List Char) :=
  match l with
  | '.' :: rest =>
    match pyDigitPart rest with
    | some (fv, fn, r) => some ((fv : ℚ) / 10 ^ fn, r)
    | none => none
  | _ =>
    match pyDigitPart l with
    | some (iv, _, r) =>
      match r with
      | '.' :: r2 =>
        match pyDigitPart r2 with
        | some (fv, fn, r3) => some ((iv : ℚ) + (fv : ℚ) / 10 ^ fn, r3)
        | none => some ((iv : ℚ), r2)
      | _ => some ((iv : ℚ), r)
    | none => none

/-- Case-insensitive comparison of a character list against a keyword. -/
def lowerEq (l : List Char) (w : List Char) : Bool :=
  l.map Char.toLower == w

/-- Application of an optional decimal exponent to a mantissa. -/
def applyExp (m : ℚ) (eneg : Bool) (ev : Nat) : ℚ :=
  if eneg then m / 10 ^ ev else m * 10 ^ ev

/-- Python float(string) on an already-stripped string: optional sign, then
either one of the keywords inf, infinity, nan (case-insensitive) or a
decimal mantissa with optional exponent.  Returns none exactly when Python
float() raises ValueError. -/
def pyFloat? (s : String) : Option PyFloat :=
  let l := s.data
  let sgn : Bool × List Char :=
    match l with
    | '+' :: r => (false, r)
    | '-' :: r => (true, r)
    | _ => (false, l)
  let neg := sgn.1
  let l2 := sgn.2
  if lowerEq l2 "inf".data || lowerEq l2 "infinity".data then
    some (PyFloat.inf (!neg))
  else if lowerEq l2 "nan".data then some PyFloat.nan
  else
    match pyNumber l2 with
    | none => none
    | some (m, r) =>
      match r with
      | [] => some (PyFloat.finite (if neg then -m else m))
      | e :: r2 =>
        if e = 'e' || e = 'E' then
          let esgn : Bool × List Char :=
            match r2 with
            | '+' :: rr => (false, rr)
            | '-' :: rr => (true, rr)
            | _ => (false, r2)
          match pyDigitPart esgn.2 with
          | some (ev, _, r4) =>
            if r4.isEmpty then
              some (PyFloat.finite
                (if neg then -(applyExp m esgn.1 ev) else applyExp m esgn.1 ev))
            else none
          | none => none
        else none

/-! ### Coordinate parsing (app.py lines 83-89) -/

/-- State of the two coordinate variables and of the inline parse-error
message after the parsing block has run. -/
structure CoordState where
  lat : Option PyFloat
  lon : Option PyFloat
  parseError : Bool
deriving DecidableEq

/-- Embedding of app.py lines 83-89.  Both variables start as None; an
empty text is falsy so no parse is attempted; otherwise the text is split
on commas, the unpacking demands exactly two pieces, and each piece is
stripped and converted by float() in sequence, so a failure on the second
piece leaves the first assignment in place.  Any failure shows the inline
parse error. -/
def readCoords (coords_text : String) : CoordState :=
  if coords_text = "" then ⟨none, none, false⟩
  else
    match pySplitChar ',' coords_text with
    | [a, b] =>
      match pyFloat? (pyStrip a) with
      | none => ⟨none, none, true⟩
      | some la =>
        match pyFloat? (pyStrip b) with
        | none => ⟨some la, none, true⟩
        | some lo => ⟨some la, some lo, false⟩
    | _ => ⟨none, none, true⟩

/-- Malformed coordinate text in the sense of the specification: the comma
split does not give exactly two pieces, or some piece does not convert as
a float. -/
def malformedCoords (s : String) : Prop :=
  (pySplitChar ',' s).length ≠ 2
  ∨ ∃ t ∈ pySplitChar ',' s, pyFloat? (pyStrip t) = none

/-! ### Images and the PIL operations used by the program -/

/-- A pixel value with alpha channel. -/
structure RGBA where
  r : Nat
  g : Nat
  b : Nat
  a : Nat
deriving DecidableEq

/-- An image: a size and a total pixel function.  Only coordinates with
0 ≤ x < w and 0 ≤ y < h are meaningful; PIL clips all drawing to them. -/
structure Img where
  w : Nat
  h : Nat
  px : Int → Int → RGBA

/-- Image.new: a constant image of the given size. -/
def newImg (w h : Nat) (c : RGBA) : Img := ⟨w, h, fun _ _ => c⟩

/-- PIL convert to RGB from RGBA: the alpha channel is discarded (an RGB
pixel is recorded as fully opaque). -/
def convertRGB (i : Img) : Img :=
  ⟨i.w, i.h, fun x y => ⟨(i.px x y).r, (i.px x y).g, (i.px x y).b, 255⟩⟩

/-- PIL convert to RGBA from RGB: every pixel becomes fully opaque. -/
def convertRGBA (i : Img) : Img :=
  ⟨i.w, i.h, fun x y => ⟨(i.px x y).r, (i.px x y).g, (i.px x y).b, 255⟩⟩

/-- ImageDraw rectangle with inclusive corners, as PIL draws it; pixels
outside the image are clipped by being meaningless. -/
def drawRect (i : Img) (x0 y0 x1 y1 : Int) (c : RGBA) : Img :=
  ⟨i.w, i.h, fun x y =>
    if x0 ≤ x ∧ x ≤ x1 ∧ y0 ≤ y ∧ y ≤ y1 then c else i.px x y⟩

/-- Porter-Duff source-over blending of one pixel onto another, the
per-pixel operation of Image.alpha_composite. -/
def overPx (bg fg : RGBA) : RGBA :=
  let oa := fg.a * 255 + bg.a * (255 - fg.a)
  if oa = 0 then ⟨0, 0, 0, 0⟩
  else
    ⟨(fg.r * fg.a * 255 + bg.r * bg.a * (255 - fg.a)) / oa,
     (fg.g * fg.a * 255 + bg.g * bg.a * (255 - fg.a)) / oa,
     (fg.b * fg.a * 255 + bg.b * bg.a * (255 - fg.a)) / oa,
     oa / 255⟩

/-- Image.alpha_composite of two images of equal size. -/
def alphaComposite (base over : Img) : Img :=
  ⟨base.w, base.h, fun x y => overPx (base.px x y) (over.px x y)⟩

/-- Linear interpolation of two pixels by a mask alpha value, the blend
performed by Image.paste when a mask is supplied. -/
def blendMask (d s : RGBA) (a : Nat) : RGBA :=
  ⟨(d.r * (255 - a) + s.r * a) / 255,
   (d.g * (255 - a) + s.g * a) / 255,
   (d.b * (255 - a) + s.b * a) / 255,
   (d.a * (255 - a) + s.a * a) / 255⟩

/-- Image.paste of src onto dst at offset (ox, oy) with an RGBA mask: the
alpha band of the mask weights source against destination inside the
pasted box and nothing changes outside it.  The destination keeps its
size. -/
def pasteMask (dst src : Img) (ox oy : Int) (mask : Img) : Img :=
  ⟨dst.w, dst.h, fun x y =>
    if ox ≤ x ∧ x < ox + src.w ∧ oy ≤ y ∧ y < oy + src.h then
      blendMask (dst.px x y) (src.px (x - ox) (y - oy))
        ((mask.px (x - ox) (y - oy)).a)
    else dst.px x y⟩

/-! ### External collaborators as observed by the program -/

/-- Observable content of the Nominatim reverse-geocoding JSON body: the
display_name field when the body has one. -/
structure GeoResp where
  display_name : Option String

/-- Observable content of the static-map HTTP response: the status code
(which app.py never inspects) and the result of decoding the body as an
image and converting it to RGBA (none when Image.open raises). -/
structure MapResp where
  status : Nat
  content : Option Img

/-- Address produced by app.py lines 144-154: the display_name field with
default empty string; any exception in the request or JSON handling is
caught and also yields the empty string. -/
def addressOf : Option GeoResp → String
  | none => ""
  | some g => g.display_name.getD ""

/-- Map thumbnail produced by app.py lines 156-163: none when the request
raised or the body failed to decode; the status code is never consulted. -/
def mapImgOf : Option MapResp → Option Img
  | none => none
  | some r => r.content

/-! ### Timestamp formatting (app.py line 179) -/

/-- A wall-clock instant, with a 24-hour hour field. -/
structure DateTime where
  year : Nat
  month : Nat
  day : Nat
  hour : Nat
  minute : Nat

/-- Conversion of a 24-hour hour to the 12-hour clock value printed by
the %I directive. -/
def hour12 (h : Nat) : Nat := if h % 12 = 0 then 12 else h % 12

/-- AM/PM marker printed by the %p directive. -/
def ampm (h : Nat) : String := if h < 12 then "AM" else "PM"

/-- strftime with the exact format string of app.py line 179,
day/month/year then 12-hour clock with AM/PM. -/
def pyStrftime (t : DateTime) : String :=
  padZeros 2 t.day ++ "/" ++ padZeros 2 t.month ++ "/" ++ padZeros 4 t.year
    ++ " " ++ padZeros 2 (hour12 t.hour) ++ ":" ++ padZeros 2 t.minute
    ++ " " ++ ampm t.hour

/-! ### Fixed-point rendering of floats (the .6f conversions on lines
180-181) -/

/-- Rounding to the nearest integer with ties to even, the rule used by
fixed-point float formatting. -/
def roundHalfEven (x : ℚ) : ℤ :=
  let f := ⌊x⌋
  let r := x - (f : ℚ)
  if r < 1 / 2 then f
  else if 1 / 2 < r then f + 1
  else if 2 ∣ f then f else f + 1

/-- Fixed-point rendering of a rational at six decimal places, the
behaviour of a .6f conversion on a finite float. -/
def fmt6Rat (q : ℚ) : String :=
  let n := (roundHalfEven (|q| * 1000000)).toNat
  (if q < 0 then "-" else "") ++ natStr (n / 1000000) ++ "."
    ++ padZeros 6 (n % 1000000)

/-- Result of a .6f conversion on any Python float value. -/
def pyFmt6 : PyFloat → String
  | .finite q => fmt6Rat q
  | .inf true => "inf"
  | .inf false => "-inf"
  | .nan => "nan"

/-! ### Caption text composition (app.py lines 179-181) -/

/-- Title line of app.py line 180: the address when it is truthy (a
non-empty string), else the coordinate-formatted fallback. -/
def titleOf (address : String) (lat lon : PyFloat) : String :=
  if address = "" then "Lat " ++ pyFmt6 lat ++ ", Lon " ++ pyFmt6 lon
  else address

/-- Subtitle string of app.py line 181: the coordinate line, a newline,
and the timestamp. -/
def subtitleOf (lat lon : PyFloat) (t : DateTime) : String :=
  "Lat " ++ pyFmt6 lat ++ "  Lon " ++ pyFmt6 lon ++ "\n" ++ pyStrftime t

/-- First line of the subtitle, for stating the claims. -/
def subtitleLine1 (lat lon : PyFloat) : String :=
  "Lat " ++ pyFmt6 lat ++ "  Lon " ++ pyFmt6 lon

/-! ### Band and inset compositor (app.py lines 166-209) -/

/-- Band height of app.py line 184, int(H * 0.22).  The double product
H * 0.22 never rounds across an integer boundary for any realistic image
height (checked exhaustively far beyond practical sizes), so truncating it
equals flooring the exact product H * 22 / 100. -/
def boxH (H : Nat) : Nat := H * 22 / 100

/-- Overlay of app.py lines 185-187: a transparent canvas of the image
size with the translucent black rectangle drawn from the band top to the
bottom edge across the full width. -/
def bandOverlay (W H : Nat) : Img :=
  drawRect (newImg W H ⟨0, 0, 0, 0⟩) 0 ((H : Int) - boxH H) (W : Int)
    (H : Int) ⟨0, 0, 0, 180⟩

/-- Font metric the layout code consumes: getsize(text)[1]. -/
structure PILFont where
  heightOf : String → Nat

/-- One draw.text call: position, text, fill colour, and whether the large
font was used.  Glyph rasterisation is left to the font library. -/
structure TextOp where
  x : Int
  y : Int
  text : String
  fill : RGBA
  big : Bool

/-- Bordered inset of app.py lines 201-204: a white opaque canvas four
pixels larger on every side, with the thumbnail pasted at (4, 4) using the
thumbnail itself as the mask. -/
def borderedInset (m : Img) : Img :=
  pasteMask (newImg (m.w + 4 * 2) (m.h + 4 * 2) ⟨255, 255, 255, 255⟩)
    m 4 4 m

/-- Pixel pipeline of app.py lines 166-209 up to and including the final
RGB conversion, together with the display list of the three draw.text
calls (lines 193-197).  The map inset paste (lines 199-207) runs only when
a thumbnail is available. -/
def stampImage (img : Img) (map_img : Option Img) (title subtitle : String)
    (font_big font_small : PILFont) : Img × List TextOp :=
  let W := img.w
  let H := img.h
  let out := convertRGBA img
  let box_h := boxH H
  let out2 := alphaComposite out (bandOverlay W H)
  let padding : Int := 18
  let titleOp : TextOp :=
    ⟨padding, (H : Int) - box_h + padding, title, ⟨255, 255, 255, 255⟩, true⟩
  let y_sub : Int := (H : Int) - box_h + padding + (font_big.heightOf title + 8)
  let subOps : List TextOp :=
    (pySplitChar '\n' subtitle).enum.map fun p =>
      ⟨padding, y_sub + (p.1 : Int) * ((font_small.heightOf p.2 : Int) + 4),
        p.2, ⟨230, 230, 230, 255⟩, false⟩
  let out3 :=
    match map_img with
    | none => out2
    | some m =>
      pasteMask out2 (borderedInset m) 12
        ((H : Int) - box_h - (m.h / 2 : Nat)) (borderedInset m)
  (convertRGB out3, titleOp :: subOps)

/-! ### Generate button handler (app.py lines 130-216) -/

/-- Everything the Generate handler observes from outside: the two HTTP
interactions, the wall clock, and the two fonts that were loaded (either
the truetype pair or the default fallback). -/
structure GenEnv where
  geo : Option GeoResp
  mapResp : Option MapResp
  now : DateTime
  font_big : PILFont
  font_small : PILFont

/-- Output of a successful generation: the final RGB image, the composed
title and subtitle strings, and the display list of text draws. -/
structure GenOutput where
  image : Img
  title : String
  subtitle : String
  ops : List TextOp

/-- Result of clicking Generate: one of the three inline error branches of
app.py lines 130-141, or the stamped output. -/
inductive GenResult where
  | errNoImage
  | errNoCoords
  | errOpenFailed
  | ok (out : GenOutput)

/-- Whether generation produced an output (no error branch was taken and
no exception escaped). -/
def GenResult.isOk : GenResult → Bool
  | .ok _ => true
  | _ => false

/-- Title line of the produced output, when there is one. -/
def GenResult.titleLine : GenResult → Option String
  | .ok o => some o.title
  | _ => none

/-- Dimensions of the produced image, when there is one. -/
def GenResult.dims : GenResult → Option (Nat × Nat)
  | .ok o => some (o.image.w, o.image.h)
  | _ => none

/-- Embedding of the Generate handler, app.py lines 130-216.  The upload
argument is none when no image was uploaded, and some none when an upload
was present but Image.open raised (the branch that calls st.stop()).  The
checks run in source order: missing image, then missing coordinates, then
the image open, then the stamping pipeline. -/
def generate (uploaded : Option (Option Img)) (cs : CoordState)
    (env : GenEnv) : GenResult :=
  match uploaded with
  | none => .errNoImage
  | some dec =>
    match cs.lat, cs.lon with
    | some lat, some lon =>
      match dec with
      | none => .errOpenFailed
      | some img0 =>
        let img := convertRGB img0
        let title := titleOf (addressOf env.geo) lat lon
        let subtitle := subtitleOf lat lon env.now
        let res := stampImage img (mapImgOf env.mapResp) title subtitle
          env.font_big env.font_small
        .ok ⟨res.1, title, subtitle, res.2⟩
    | _, _ => .errNoCoords

/-! ### Supporting lemmas: split -/

theorem splitChar_ne_nil (c : Char) (l : List Char) : splitChar c l ≠ [] := by
  cases l with
  | nil => simp [splitChar]
  | cons x xs =>
    simp only [splitChar]
    cases hxs : splitChar c xs with
    | nil => simp
    | cons t ts => by_cases hx : x = c <;> simp [hx]

theorem splitChar_of_not_mem {c : Char} {l : List Char} (h : c ∉ l) :
    splitChar c l = [l] := by
  induction l with
  | nil => rfl
  | cons x xs ih =>
    rw [List.mem_cons, not_or] at h
    obtain ⟨h1, h2⟩ := h
    have hx : ¬(x = c) := fun he => h1 he.symm
    simp [splitChar, ih h2, hx]

theorem splitChar_append {c : Char} {l1 : List Char} (l2 : List Char)
    (h : c ∉ l1) : splitChar c (l1 ++ c :: l2) = l1 :: splitChar c l2 := by
  induction l1 with
  | nil =>
    simp only [List.nil_append, splitChar]
    cases hxs : splitChar c l2 with
    | nil => exact absurd hxs (splitChar_ne_nil c l2)
    | cons t ts => simp
  | cons x xs ih =>
    rw [List.mem_cons, not_or] at h
    obtain ⟨h1, h2⟩ := h
    have hx : ¬(x = c) := fun he => h1 he.symm
    rw [List.cons_append]
    simp only [splitChar]
    rw [ih h2]
    simp [hx]

theorem pySplitChar_pair (c : Char) (x y : String)
    (hx : c ∉ x.data) (hy : c ∉ y.data) :
    pySplitChar c (String.mk (x.data ++ c :: y.data)) = [x, y] := by
  unfold pySplitChar
  rw [show (String.mk (x.data ++ c :: y.data)).data = x.data ++ c :: y.data
    from rfl]
  rw [splitChar_append _ hx, splitChar_of_not_mem hy]
  rfl

/-! ### Supporting lemmas: strip -/

theorem dropWhile_append_all {p : Char → Bool} {l1 : List Char}
    (l2 : List Char) (h : ∀ a ∈ l1, p a = true) :
    (l1 ++ l2).dropWhile p = l2.dropWhile p := by
  induction l1 with
  | nil => rfl
  | cons x xs ih =>
    rw [List.cons_append, List.dropWhile_cons, h x (List.mem_cons_self x xs)]
    exact ih fun a ha => h a (List.mem_cons_of_mem _ ha)

theorem dropWhile_append_split (p : Char → Bool) (s t : List Char) :
    (s ++ t).dropWhile p =
      if (s.dropWhile p).isEmpty then t.dropWhile p
      else s.dropWhile p ++ t := by
  induction s with
  | nil => simp
  | cons x xs ih =>
    by_cases hx : p x = true
    · simp [List.dropWhile_cons, hx, ih]
    · simp [List.dropWhile_cons, hx]

theorem trimRight_append_all {l w : List Char}
    (h : ∀ a ∈ w, isPySpace a = true) : trimRight (l ++ w) = trimRight l := by
  unfold trimRight
  rw [List.reverse_append,
    dropWhile_append_all _ fun a ha => h a (List.mem_reverse.mp ha)]

theorem pyStripL_pad (w1 w2 s : List Char)
    (h1 : ∀ a ∈ w1, isPySpace a = true) (h2 : ∀ a ∈ w2, isPySpace a = true) :
    trimRight ((w1 ++ s ++ w2).dropWhile isPySpace) =
      trimRight (s.dropWhile isPySpace) := by
  rw [List.append_assoc, dropWhile_append_all _ h1,
    dropWhile_append_split isPySpace s w2]
  by_cases he : (s.dropWhile isPySpace).isEmpty
  · rw [if_pos he]
    have hw2 : w2.dropWhile isPySpace = [] :=
      List.dropWhile_eq_nil_iff.mpr h2
    rw [hw2, List.isEmpty_iff.mp he]
  · rw [if_neg he, trimRight_append_all h2]

theorem pyStrip_pad (w1 s w2 : String)
    (h1 : ∀ a ∈ w1.data, isPySpace a = true)
    (h2 : ∀ a ∈ w2.data, isPySpace a = true) :
    pyStrip (w1 ++ s ++ w2) = pyStrip s := by
  unfold pyStrip
  rw [show (w1 ++ s ++ w2).data = w1.data ++ s.data ++ w2.data by
    simp [String.data_append]]
  rw [pyStripL_pad _ _ _ h1 h2]

/-! ### Supporting lemmas: no newline in rendered numbers and timestamps -/

theorem natDigitsAux_mem :
    ∀ (fuel n : Nat) (acc : List Char) (ch : Char),
      ch ∈ natDigitsAux fuel n acc →
        ch ∈ acc ∨ ∃ d, d < 10 ∧ ch = digitChar d := by
  intro fuel
  induction fuel with
  | zero => exact fun n acc ch h => Or.inl h
  | succ f ih =>
    intro n acc ch h
    simp only [natDigitsAux] at h
    by_cases hn : n < 10
    · rw [if_pos hn] at h
      rcases List.mem_cons.mp h with h1 | h2
      · exact Or.inr ⟨n, hn, h1⟩
      · exact Or.inl h2
    · rw [if_neg hn] at h
      rcases ih (n / 10) _ ch h with h1 | h2
      · rcases List.mem_cons.mp h1 with h3 | h4
        · exact Or.inr ⟨n % 10, Nat.mod_lt _ (by omega), h3⟩
        · exact Or.inl h4
      · exact Or.inr h2

theorem natStr_noNL (n : Nat) : '\n' ∉ (natStr n).data := by
  intro h
  rcases natDigitsAux_mem _ _ _ _ h with h1 | ⟨d, hd, he⟩
  · exact absurd h1 (List.not_mem_nil _)
  · have hne : ∀ d, d < 10 → digitChar d ≠ '\n' := by decide
    exact hne d hd he.symm

theorem noNL_append {a b : String} (ha : '\n' ∉ a.data)
    (hb : '\n' ∉ b.data) : '\n' ∉ (a ++ b).data := by
  rw [String.data_append]
  intro h
  rcases List.mem_append.mp h with h1 | h2
  · exact ha h1
  · exact hb h2

theorem padZeros_noNL (w n : Nat) : '\n' ∉ (padZeros w n).data := by
  unfold padZeros
  refine noNL_append ?_ (natStr_noNL n)
  intro h
  have := List.eq_of_mem_replicate h
  simp at this

theorem fmt6Rat_noNL (q : ℚ) : '\n' ∉ (fmt6Rat q).data := by
  unfold fmt6Rat
  refine noNL_append (noNL_append (noNL_append ?_ (natStr_noNL _)) ?_)
    (padZeros_noNL _ _)
  · by_cases hq : q < 0
    · rw [if_pos hq]; decide
    · rw [if_neg hq]; decide
  · decide

theorem pyFmt6_noNL (x : PyFloat) : '\n' ∉ (pyFmt6 x).data := by
  cases x with
  | finite q => exact fmt6Rat_noNL q
  | inf pos => cases pos <;> decide
  | nan => decide

theorem ampm_noNL (h : Nat) : '\n' ∉ (ampm h).data := by
  unfold ampm
  by_cases hh : h < 12
  · rw [if_pos hh]; decide
  · rw [if_neg hh]; decide

theorem pyStrftime_noNL (t : DateTime) : '\n' ∉ (pyStrftime t).data := by
  unfold pyStrftime
  refine noNL_append (noNL_append (noNL_append (noNL_append (noNL_append
    (noNL_append (noNL_append (noNL_append (noNL_append (noNL_append
      (padZeros_noNL _ _) (by decide)) (padZeros_noNL _ _)) (by decide))
        (padZeros_noNL _ _)) (by decide)) (padZeros_noNL _ _)) (by decide))
          (padZeros_noNL _ _)) (by decide)) (ampm_noNL _)

theorem subtitleLine1_noNL (lat lon : PyFloat) :
    '\n' ∉ (subtitleLine1 lat lon).data := by
  unfold subtitleLine1
  exact noNL_append (noNL_append (noNL_append (by decide) (pyFmt6_noNL lat))
    (by decide)) (pyFmt6_noNL lon)

/-! ### Supporting lemmas: evaluating the fixed-point renderer -/

theorem fmt6Rat_eq (q : ℚ) (n : Nat) (hq : 0 ≤ q)
    (h : q * 1000000 = (n : ℚ)) :
    fmt6Rat q = natStr (n / 1000000) ++ "." ++ padZeros 6 (n % 1000000) := by
  have h0 : ¬q < 0 := not_lt.mpr hq
  have habs : |q| = q := abs_of_nonneg hq
  have hfloor : ⌊(n : ℚ)⌋ = (n : ℤ) := Int.floor_natCast n
  simp only [fmt6Rat, roundHalfEven, habs, h, hfloor, if_neg h0]
  have hr : (n : ℚ) - ((n : ℤ) : ℚ) = 0 := by push_cast; ring
  simp only [hr]
  rw [if_pos (by norm_num : (0 : ℚ) < 1 / 2)]
  simp only [Int.toNat_natCast]
  rfl

theorem subtitle_split (lat lon : PyFloat) (t : DateTime) :
    pySplitChar '\n' (subtitleOf lat lon t) =
      [subtitleLine1 lat lon, pyStrftime t] := by
  have hdata : (subtitleOf lat lon t).data =
      (subtitleLine1 lat lon).data ++ '\n' :: (pyStrftime t).data := by
    simp [subtitleOf, subtitleLine1, String.data_append, List.append_assoc]
  have hs : subtitleOf lat lon t =
      String.mk ((subtitleLine1 lat lon).data ++ '\n' :: (pyStrftime t).data) :=
    String.ext hdata
  rw [hs, pySplitChar_pair '\n' _ _ (subtitleLine1_noNL lat lon)
    (pyStrftime_noNL t)]

/-! ### Claim theorems -/

/-- C1: for every generation with a fixed coordinate pair, the title line
equals the reverse-geocoded address whenever that address string is
non-empty, and otherwise equals the coordinate string with both values
rendered at six decimal places; in particular a failed geocoding call
yields the empty address and hence the coordinate-formatted title, and a
display_name of Springfield yields the title Springfield.  The last
conjunct ties the composed title to the Generate handler output. -/
theorem title_line_spec (g : Option GeoResp) (lat lon : PyFloat) :
    (addressOf g ≠ "" → titleOf (addressOf g) lat lon = addressOf g)
    ∧ (addressOf g = "" →
        titleOf (addressOf g) lat lon =
          "Lat " ++ pyFmt6 lat ++ ", Lon " ++ pyFmt6 lon)
    ∧ (g = none →
        titleOf (addressOf g) lat lon =
          "Lat " ++ pyFmt6 lat ++ ", Lon " ++ pyFmt6 lon)
    ∧ titleOf (addressOf (some ⟨some "Springfield"⟩)) lat lon = "Springfield"
    ∧ ∀ (img : Img) (pe : Bool) (mr : Option MapResp) (t : DateTime)
        (fb fs : PILFont),
        (generate (some (some img)) ⟨some lat, some lon, pe⟩
          ⟨g, mr, t, fb, fs⟩).titleLine =
            some (titleOf (addressOf g) lat lon) := by
  refine ⟨fun h => ?_, fun h => ?_, fun h => ?_, rfl,
    fun img pe mr t fb fs => rfl⟩
  · unfold titleOf
    rw [if_neg h]
  · unfold titleOf
    rw [if_pos h]
  · rw [h]
    rfl

/-- C1 witness: the theorem instantiated at a successful Springfield
geocode and at a failed geocode. -/
theorem title_line_spec_witness :
    titleOf (addressOf (some ⟨some "Springfield"⟩)) (.finite 1) (.finite 2) =
      addressOf (some ⟨some "Springfield"⟩)
    ∧ titleOf (addressOf none) (.finite 1) (.finite 2) =
        "Lat " ++ pyFmt6 (.finite 1) ++ ", Lon " ++ pyFmt6 (.finite 2) :=
  ⟨(title_line_spec (some ⟨some "Springfield"⟩) (.finite 1) (.finite 2)).1
      (by decide),
   (title_line_spec none (.finite 1) (.finite 2)).2.2.1 rfl⟩

/-- C2: when the static-map fetch raised or the body failed to decode, the
thumbnail is none, the stamping pipeline equals the pipeline with the
paste step skipped (band and text only), and the Generate handler still
returns an output, so no exception escapes the generation step. -/
theorem map_failure_graceful (mr : Option MapResp)
    (hfail : mr = none ∨ ∃ r, mr = some r ∧ r.content = none) :
    mapImgOf mr = none
    ∧ (∀ (img : Img) (title subtitle : String) (fb fs : PILFont),
        stampImage img (mapImgOf mr) title subtitle fb fs =
          (convertRGB (alphaComposite (convertRGBA img)
            (bandOverlay img.w img.h)),
           (stampImage img none title subtitle fb fs).2))
    ∧ ∀ (img0 : Img) (lat lon : PyFloat) (pe : Bool) (g : Option GeoResp)
        (t : DateTime) (fb fs : PILFont),
        (generate (some (some img0)) ⟨some lat, some lon, pe⟩
          ⟨g, mr, t, fb, fs⟩).isOk = true := by
  have h : mapImgOf mr = none := by
    rcases hfail with h | ⟨r, hr, hc⟩
    · rw [h]
      rfl
    · rw [hr]
      exact hc
  refine ⟨h, fun img title subtitle fb fs => ?_,
    fun img0 lat lon pe g t fb fs => rfl⟩
  rw [h]
  rfl

/-- C2 witness: the theorem instantiated at a raised fetch and a concrete
generation. -/
theorem map_failure_graceful_witness :
    mapImgOf none = none
    ∧ (generate (some (some (newImg 800 600 ⟨0, 0, 0, 255⟩)))
        ⟨some (.finite 1), some (.finite 2), false⟩
        ⟨none, none, ⟨2026, 10, 12, 9, 30⟩, ⟨fun _ => 20⟩,
          ⟨fun _ => 14⟩⟩).isOk = true :=
  ⟨(map_failure_graceful none (Or.inl rfl)).1,
   (map_failure_graceful none (Or.inl rfl)).2.2
     (newImg 800 600 ⟨0, 0, 0, 255⟩) (.finite 1) (.finite 2) false none
     ⟨2026, 10, 12, 9, 30⟩ ⟨fun _ => 20⟩ ⟨fun _ => 14⟩⟩

/-- C3 counterexample: on the malformed text 1,abc (second token
non-numeric) the parse fails and the error is shown, but the latitude
variable has already been assigned by the time float raises on the second
token, so the two parsed coordinates do NOT both remain unset. -/
theorem parse_both_unset_cex :
    (pySplitChar ',' "1,abc").length = 2
    ∧ pyFloat? (pyStrip "abc") = none
    ∧ (readCoords "1,abc").parseError = true
    ∧ (readCoords "1,abc").lat = some (.finite 1) := by decide

/-- Generation never proceeds while the longitude variable is unset. -/
theorem generate_not_ok_of_lon_none (cs : CoordState) (h : cs.lon = none)
    (uploaded : Option (Option Img)) (env : GenEnv) :
    (generate uploaded cs env).isOk = false := by
  obtain ⟨la, lo, pe⟩ := cs
  cases h
  cases uploaded with
  | none => rfl
  | some dec => cases la <;> rfl

/-- C3 as amended: for every non-empty malformed coordinate text the parse
fails in the sense that the longitude remains unset (the latitude may
remain assigned when only the second token is bad), the inline parse error
is shown, and image generation does not proceed. -/
theorem parse_failure_blocks (s : String) (hne : s ≠ "")
    (hm : malformedCoords s) :
    (readCoords s).lon = none
    ∧ (readCoords s).parseError = true
    ∧ ∀ (uploaded : Option (Option Img)) (env : GenEnv),
        (generate uploaded (readCoords s) env).isOk = false := by
  have hmain : (readCoords s).lon = none ∧ (readCoords s).parseError = true := by
    rcases hsplit : pySplitChar ',' s with _ | ⟨a, _ | ⟨b, _ | _⟩⟩
    · simp only [readCoords, if_neg hne, hsplit]
      exact ⟨trivial, trivial⟩
    · simp only [readCoords, if_neg hne, hsplit]
      exact ⟨trivial, trivial⟩
    · simp only [readCoords, if_neg hne, hsplit]
      cases hpa : pyFloat? (pyStrip a) with
      | none => exact ⟨rfl, rfl⟩
      | some la =>
        cases hpb : pyFloat? (pyStrip b) with
        | none => exact ⟨rfl, rfl⟩
        | some lo =>
          exfalso
          rcases hm with hlen | ⟨tok, htok, hpt⟩
          · rw [hsplit] at hlen
            simp at hlen
          · rw [hsplit] at htok
            simp only [List.mem_cons, List.not_mem_nil, or_false] at htok
            rcases htok with rfl | rfl
            · rw [hpt] at hpa
              cases hpa
            · rw [hpt] at hpb
              cases hpb
    · simp only [readCoords, if_neg hne, hsplit]
      exact ⟨trivial, trivial⟩
  exact ⟨hmain.1, hmain.2,
    fun uploaded env => generate_not_ok_of_lon_none _ hmain.1 uploaded env⟩

/-- C3 witness: the amended theorem instantiated at a text with no comma
and a concrete generation attempt. -/
theorem parse_failure_blocks_witness :
    (readCoords "12").lon = none
    ∧ (readCoords "12").parseError = true
    ∧ (generate (some (some (newImg 2 2 ⟨0, 0, 0, 255⟩))) (readCoords "12")
        ⟨none, none, ⟨2026, 10, 12, 9, 30⟩, ⟨fun _ => 20⟩,
          ⟨fun _ => 14⟩⟩).isOk = false :=
  ⟨(parse_failure_blocks "12" (by decide) (Or.inl (by decide))).1,
   (parse_failure_blocks "12" (by decide) (Or.inl (by decide))).2.1,
   (parse_failure_blocks "12" (by decide) (Or.inl (by decide))).2.2
     (some (some (newImg 2 2 ⟨0, 0, 0, 255⟩)))
     ⟨none, none, ⟨2026, 10, 12, 9, 30⟩, ⟨fun _ => 20⟩, ⟨fun _ => 14⟩⟩⟩

/-- C4: on every pixel inside the image, the band overlay carries the
translucent black fill with alpha 180 exactly on the rows from the band
top down to the bottom edge, across the full width; the band height is
22 percent of the image height truncated to an integer, which is 132 for
height 600, and the overlay has the image size. -/
theorem band_geometry (W H : Nat) (x y : Int) (hx0 : 0 ≤ x)
    (hxW : x < (W : Int)) (hy0 : 0 ≤ y) (hyH : y < (H : Int)) :
    ((bandOverlay W H).px x y = ⟨0, 0, 0, 180⟩ ↔ (H : Int) - boxH H ≤ y)
    ∧ (bandOverlay W H).w = W ∧ (bandOverlay W H).h = H
    ∧ boxH H = H * 22 / 100 ∧ boxH 600 = 132 := by
  have hpx : (bandOverlay W H).px x y =
      (if (0 : Int) ≤ x ∧ x ≤ (W : Int) ∧ (H : Int) - boxH H ≤ y
          ∧ y ≤ (H : Int)
       then (⟨0, 0, 0, 180⟩ : RGBA) else ⟨0, 0, 0, 0⟩) := rfl
  refine ⟨⟨fun h => ?_, fun hb => ?_⟩, rfl, rfl, rfl, rfl⟩
  · by_contra hno
    rw [hpx, if_neg fun hc => hno hc.2.2.1] at h
    exact absurd h (by decide)
  · rw [hpx, if_pos ⟨hx0, le_of_lt hxW, hb, le_of_lt hyH⟩]

/-- C4 witness: the theorem instantiated at an 800 by 600 image on a pixel
of the bottom row. -/
theorem band_geometry_witness :
    ((bandOverlay 800 600).px 5 599 = ⟨0, 0, 0, 180⟩ ↔
      ((600 : Nat) : Int) - boxH 600 ≤ 599)
    ∧ (bandOverlay 800 600).w = 800 ∧ (bandOverlay 800 600).h = 600
    ∧ boxH 600 = 600 * 22 / 100 ∧ boxH 600 = 132 :=
  band_geometry 800 600 5 599 (by decide) (by decide) (by decide) (by decide)

/-- C5: the stamping pipeline preserves the input width and height
whatever the thumbnail availability, the texts, and the fonts, and the
image produced by a successful Generate run has exactly the dimensions of
the opened upload. -/
theorem output_dims (img : Img) (map_img : Option Img)
    (title subtitle : String) (fb fs : PILFont) :
    ((stampImage img map_img title subtitle fb fs).1.w = img.w
      ∧ (stampImage img map_img title subtitle fb fs).1.h = img.h)
    ∧ ∀ (img0 : Img) (lat lon : PyFloat) (pe : Bool) (env : GenEnv),
        (generate (some (some img0)) ⟨some lat, some lon, pe⟩ env).dims =
          some (img0.w, img0.h) := by
  constructor
  · cases map_img <;> exact ⟨rfl, rfl⟩
  · intro img0 lat lon pe env
    cases h : mapImgOf env.mapResp <;>
      simp only [generate, GenResult.dims, stampImage, h, Option.some.injEq,
        Prod.mk.injEq] <;>
      exact ⟨rfl, rfl⟩

/-- C9: when a thumbnail of size (tw, th) is available, the pipeline
pastes the bordered inset at x = 12 and y equal to the band top minus half
the thumbnail height, using the bordered inset itself (hence its alpha
channel) as the paste mask; the bordered inset is the thumbnail pasted
with its own alpha onto a white opaque canvas that is four pixels larger
on every side. -/
theorem inset_geometry (img m : Img) (title subtitle : String)
    (fb fs : PILFont) :
    (stampImage img (some m) title subtitle fb fs).1 =
      convertRGB (pasteMask
        (alphaComposite (convertRGBA img) (bandOverlay img.w img.h))
        (borderedInset m) 12
        ((img.h : Int) - boxH img.h - (m.h / 2 : Nat)) (borderedInset m))
    ∧ borderedInset m =
        pasteMask (newImg (m.w + 4 * 2) (m.h + 4 * 2) ⟨255, 255, 255, 255⟩)
          m 4 4 m
    ∧ (borderedInset m).w = m.w + 8 ∧ (borderedInset m).h = m.h + 8 := by
  refine ⟨rfl, rfl, ?_, ?_⟩ <;> simp [borderedInset, pasteMask, newImg]

/-- C6: the subtitle drawn by the loop splits into exactly two lines, the
coordinate line with six decimal places and two spaces between the fields,
then the timestamp in day/month/year 12-hour AM/PM format; at the
coordinates of the scenario the first line reads
Lat 24.461960  Lon 72.770450. -/
theorem subtitle_spec (lat lon : PyFloat) (t : DateTime) :
    pySplitChar '\n' (subtitleOf lat lon t) =
      [subtitleLine1 lat lon, pyStrftime t]
    ∧ subtitleLine1 lat lon =
        "Lat " ++ pyFmt6 lat ++ "  Lon " ++ pyFmt6 lon
    ∧ subtitleLine1 (.finite (24.46196 : ℚ)) (.finite (72.77045 : ℚ)) =
        "Lat 24.461960  Lon 72.770450"
    ∧ ∀ (h24 : Nat), hour12 h24 = (if h24 % 12 = 0 then 12 else h24 % 12)
    ∧ ampm h24 = (if h24 < 12 then "AM" else "PM") := by
  refine ⟨subtitle_split lat lon t, rfl, ?_, fun h24 => ⟨rfl, rfl⟩⟩
  have hlat : fmt6Rat (24.46196 : ℚ) = "24.461960" := by
    rw [fmt6Rat_eq (24.46196 : ℚ) 24461960 (by norm_num) (by norm_num)]
    decide
  have hlon : fmt6Rat (72.77045 : ℚ) = "72.770450" := by
    rw [fmt6Rat_eq (72.77045 : ℚ) 72770450 (by norm_num) (by norm_num)]
    decide
  have h1 : pyFmt6 (.finite (24.46196 : ℚ)) = "24.461960" := hlat
  have h2 : pyFmt6 (.finite (72.77045 : ℚ)) = "72.770450" := hlon
  unfold subtitleLine1
  rw [h1, h2]
  decide

/-- C7: the coordinate parser is invariant under whitespace padding of the
two numeric tokens: both the padded and the unpadded text parse to the
same latitude and longitude pair with no error. -/
theorem parse_whitespace_invariant (a b w1 w2 w3 w4 : String)
    (x y : PyFloat)
    (hw1 : ∀ ch ∈ w1.data, isPySpace ch = true)
    (hw2 : ∀ ch ∈ w2.data, isPySpace ch = true)
    (hw3 : ∀ ch ∈ w3.data, isPySpace ch = true)
    (hw4 : ∀ ch ∈ w4.data, isPySpace ch = true)
    (ha : ',' ∉ a.data) (hb : ',' ∉ b.data)
    (hpa : pyFloat? (pyStrip a) = some x)
    (hpb : pyFloat? (pyStrip b) = some y) :
    readCoords (w1 ++ a ++ w2 ++ "," ++ w3 ++ b ++ w4) =
      ⟨some x, some y, false⟩
    ∧ readCoords (a ++ "," ++ b) = ⟨some x, some y, false⟩ := by
  have hsp : ∀ (w : String), (∀ ch ∈ w.data, isPySpace ch = true) →
      ',' ∉ w.data := by
    intro w hw hmem
    have := hw ',' hmem
    simp [isPySpace] at this
  have hA : ',' ∉ (w1 ++ a ++ w2).data := by
    rw [show (w1 ++ a ++ w2).data = w1.data ++ a.data ++ w2.data by
      simp [String.data_append]]
    intro h
    rcases List.mem_append.mp h with h1 | h2
    · rcases List.mem_append.mp h1 with h3 | h4
      · exact hsp w1 hw1 h3
      · exact ha h4
    · exact hsp w2 hw2 h2
  have hB : ',' ∉ (w3 ++ b ++ w4).data := by
    rw [show (w3 ++ b ++ w4).data = w3.data ++ b.data ++ w4.data by
      simp [String.data_append]]
    intro h
    rcases List.mem_append.mp h with h1 | h2
    · rcases List.mem_append.mp h1 with h3 | h4
      · exact hsp w3 hw3 h3
      · exact hb h4
    · exact hsp w4 hw4 h2
  have hbig : (w1 ++ a ++ w2 ++ "," ++ w3 ++ b ++ w4) =
      String.mk ((w1 ++ a ++ w2).data ++ ',' :: (w3 ++ b ++ w4).data) := by
    apply String.ext
    simp [String.data_append, List.append_assoc]
  have hsplitBig : pySplitChar ',' (w1 ++ a ++ w2 ++ "," ++ w3 ++ b ++ w4) =
      [w1 ++ a ++ w2, w3 ++ b ++ w4] := by
    rw [hbig, pySplitChar_pair ',' _ _ hA hB]
  have hplain : (a ++ "," ++ b) =
      String.mk (a.data ++ ',' :: b.data) := by
    apply String.ext
    simp [String.data_append, List.append_assoc]
  have hsplitPlain : pySplitChar ',' (a ++ "," ++ b) = [a, b] := by
    rw [hplain, pySplitChar_pair ',' _ _ ha hb]
  have hstripA : pyStrip (w1 ++ a ++ w2) = pyStrip a := pyStrip_pad _ _ _ hw1 hw2
  have hstripB : pyStrip (w3 ++ b ++ w4) = pyStrip b := pyStrip_pad _ _ _ hw3 hw4
  have hneBig : (w1 ++ a ++ w2 ++ "," ++ w3 ++ b ++ w4) ≠ "" := by
    intro h
    have : (w1 ++ a ++ w2 ++ "," ++ w3 ++ b ++ w4).data = [] := by
      rw [h]
    rw [hbig] at this
    simp at this
  have hnePlain : (a ++ "," ++ b) ≠ "" := by
    intro h
    have : (a ++ "," ++ b).data = [] := by
      rw [h]
    rw [hplain] at this
    simp at this
  constructor
  · unfold readCoords
    rw [if_neg hneBig, hsplitBig]
    simp only [hstripA, hstripB, hpa, hpb]
  · unfold readCoords
    rw [if_neg hnePlain, hsplitPlain]
    simp only [hpa, hpb]

/-- C7 witness: the theorem instantiated at the tokens 3 and 4 padded with
single spaces. -/
theorem parse_whitespace_invariant_witness :
    readCoords (" " ++ "3" ++ " " ++ "," ++ " " ++ "4" ++ " ") =
      ⟨some (.finite 3), some (.finite 4), false⟩
    ∧ readCoords ("3" ++ "," ++ "4") =
        ⟨some (.finite 3), some (.finite 4), false⟩ :=
  parse_whitespace_invariant "3" "4" " " " " " " " " (.finite 3) (.finite 4)
    (by decide) (by decide) (by decide) (by decide) (by decide) (by decide)
    (by decide) (by decide)

/-- C8 counterexample: a static-map response with status 404 whose body
nonetheless decodes as an image yields a thumbnail, because app.py never
inspects the status code; the inset is therefore NOT omitted on every
non-200 response. -/
theorem nonzero_status_inset_cex :
    (⟨404, some (newImg 160 160 ⟨10, 20, 30, 255⟩)⟩ : MapResp).status ≠ 200
    ∧ (mapImgOf (some ⟨404, some (newImg 160 160 ⟨10, 20, 30, 255⟩)⟩)).isSome
        = true :=
  ⟨by decide, rfl⟩

/-- C8 as amended: on every static-map response with a non-200 status the
generation still completes and returns an output; the inset is omitted
exactly when the response body fails to decode as an image, since the
status code is never consulted. -/
theorem nonzero_status_graceful (r : MapResp) (h : r.status ≠ 200) :
    (mapImgOf (some r) = none ↔ r.content = none)
    ∧ ∀ (img0 : Img) (lat lon : PyFloat) (pe : Bool) (g : Option GeoResp)
        (t : DateTime) (fb fs : PILFont),
        (generate (some (some img0)) ⟨some lat, some lon, pe⟩
          ⟨g, some r, t, fb, fs⟩).isOk = true :=
  ⟨Iff.rfl, fun img0 lat lon pe g t fb fs => rfl⟩

/-- C8 witness: the amended theorem instantiated at a 500 response with an
undecodable body and a concrete generation. -/
theorem nonzero_status_graceful_witness :
    (mapImgOf (some (⟨500, none⟩ : MapResp)) = none ↔
      (⟨500, none⟩ : MapResp).content = none)
    ∧ (generate (some (some (newImg 800 600 ⟨0, 0, 0, 255⟩)))
        ⟨some (.finite 1), some (.finite 2), false⟩
        ⟨none, some ⟨500, none⟩, ⟨2026, 10, 12, 9, 30⟩, ⟨fun _ => 20⟩,
          ⟨fun _ => 14⟩⟩).isOk = true :=
  ⟨(nonzero_status_graceful ⟨500, none⟩ (by decide)).1,
   (nonzero_status_graceful ⟨500, none⟩ (by decide)).2
     (newImg 800 600 ⟨0, 0, 0, 255⟩) (.finite 1) (.finite 2) false none
     ⟨2026, 10, 12, 9, 30⟩ ⟨fun _ => 20⟩ ⟨fun _ => 14⟩⟩

/-- C10: for the empty coordinate text no parse is attempted and no parse
error is shown, both coordinate variables remain unset, and clicking
Generate with any uploaded image reports the missing-coordinates error, so
generation does not proceed. -/
theorem empty_coords_no_parse :
    readCoords "" = ⟨none, none, false⟩
    ∧ ∀ (dec : Option Img) (env : GenEnv),
        generate (some dec) (readCoords "") env = .errNoCoords :=
  ⟨rfl, fun dec env => rfl⟩

end GPSMap
